import Mathlib

/-!
Verification model of the Activity Scheduling & Attendance Coordination core
of the platform-sports web application.

The definitions below are a shallow embedding of the TypeScript handlers:

* `handleCreateWith` / `handleCreate` — the multi-date publication expander
  of `app/activities/new/page.tsx` (`handleCreate`);
* `handleSaveEdit` — the edit-time variant of `app/activities/[id]/edit/page.tsx`
  (`handleSave`);
* `handleConfirmToggle`, `confirmStep`, `cancelStep` — the attendance
  coordinator of `app/activities/[id]/page.tsx` (`handleConfirmToggle`);
* `fetchAttendeeAvatars`, `fetchCreatorList` — the roster views;
* `fetchChat` — the chat feed reader;
* `capOrZero`, `spotsLeft` — the spots-left display computation.

The relational store is modelled as lists of rows in insertion order.  A
query with `order by created_at ascending` is modelled as a stable sort of
the insertion-ordered rows (ties keep insertion/id order).
-/

namespace PlatformSports

/-! ## String utilities

The handlers work on raw form strings (`title.trim()`, `Number(capacity)`,
`new Date(v)` …).  These are modelled on the character-list representation
of `String` so that everything evaluates by `decide`. -/

/-- Whitespace characters recognised by the JavaScript `trim`. -/
def isWs (c : Char) : Bool :=
  c = ' ' || c = '\t' || c = '\n' || c = '\r'

/-- Trim whitespace from both ends of a character list. -/
def trimChars (cs : List Char) : List Char :=
  ((cs.dropWhile isWs).reverse.dropWhile isWs).reverse

/-- Model of the JavaScript `String.prototype.trim`. -/
def strTrim (s : String) : String :=
  String.mk (trimChars s.data)

/-- Model of the JavaScript `String.prototype.length` on the code's inputs. -/
def strLen (s : String) : Nat :=
  s.data.length

/-- Split a character list on a separator character (like `String.split`). -/
def splitOnChar (sep : Char) : List Char → List (List Char)
  | [] => [[]]
  | c :: cs =>
    if c = sep then
      [] :: splitOnChar sep cs
    else
      match splitOnChar sep cs with
      | [] => [[c]]
      | g :: gs => (c :: g) :: gs

/-- Interpret a non-empty all-digit character list as a natural number. -/
def digitsToNat : List Char → Option Nat :=
  fun cs =>
    if cs ≠ [] ∧ cs.all Char.isDigit then
      some (cs.foldl (fun acc c => 10 * acc + (c.toNat - '0'.toNat)) 0)
    else
      none

/-! ## JavaScript numbers

`Number(text)` on the numeric form inputs is modelled exactly: a decimal
literal with optional sign and optional fraction is kept as a scaled
integer (value = `sign * (intPart + fracPart / 10 ^ fracLen)`), so that
the sign tests and `Math.round(n * 100)` used by the handlers are exact.
`none` models `NaN` (which fails the `Number.isFinite` guards). -/

structure JsNum where
  neg : Bool
  intPart : Nat
  fracPart : Nat
  fracLen : Nat
deriving DecidableEq, Repr

namespace JsNum

/-- The number is strictly greater than zero. -/
def isPos (n : JsNum) : Bool :=
  !n.neg && (0 < n.intPart || 0 < n.fracPart)

/-- The number is strictly less than zero. -/
def isNeg (n : JsNum) : Bool :=
  n.neg && (0 < n.intPart || 0 < n.fracPart)

/-- Model of `Math.round(n * 100)` (half-up rounding, as floor of x + 1/2). -/
def roundTimes100 (n : JsNum) : Int :=
  let d : Nat := 10 ^ n.fracLen
  let p : Nat := n.intPart * 100 * d + n.fracPart * 100
  let sp : Int := if n.neg then -(p : Int) else (p : Int)
  Int.fdiv (2 * sp + (d : Int)) (2 * (d : Int))

end JsNum

/-- Parse an unsigned decimal literal (digits, optional `.` and digits). -/
def parseDecimal (cs : List Char) : Option JsNum :=
  let intDigits := cs.takeWhile Char.isDigit
  let rest := cs.dropWhile Char.isDigit
  match rest with
  | [] =>
    if intDigits = [] then none
    else some ⟨false, (intDigits.foldl (fun acc c => 10 * acc + (c.toNat - '0'.toNat)) 0), 0, 0⟩
  | '.' :: frac =>
    if frac.all Char.isDigit ∧ (intDigits ≠ [] ∨ frac ≠ []) then
      some ⟨false,
        intDigits.foldl (fun acc c => 10 * acc + (c.toNat - '0'.toNat)) 0,
        frac.foldl (fun acc c => 10 * acc + (c.toNat - '0'.toNat)) 0,
        frac.length⟩
    else none
  | _ => none

/-- Model of the JavaScript `Number(text)` on the code's numeric inputs:
whitespace is ignored, the empty string is `0`, a decimal literal with an
optional leading minus parses exactly, anything else is `NaN` (`none`). -/
def jsNumber (s : String) : Option JsNum :=
  let cs := trimChars s.data
  match cs with
  | [] => some ⟨false, 0, 0, 0⟩
  | '-' :: rest => (parseDecimal rest).map (fun n => { n with neg := true })
  | _ => parseDecimal cs

/-- Model of `toCents` in `app/activities/new/page.tsx`: trim, `null` when
blank, `Number`, `null` on `NaN` or negative, else `Math.round(n * 100)`. -/
def toCents (usdText : String) : Option Int :=
  let v := strTrim usdText
  if v = "" then none
  else
    match jsNumber v with
    | none => none
    | some n => if n.isNeg then none else some n.roundTimes100

/-! ## Local date-time resolution

`datetimeLocalToIso` in `app/activities/new/page.tsx` turns a
`datetime-local` string into an absolute instant with
`new Date(v).toISOString()`.  The browser interprets the string as local
wall-clock time and converts it with the client's fixed UTC offset, so two
candidate strings resolve to the same absolute instant exactly when their
wall-clock values (normalised to seconds precision) are equal.  The
resolved instant is therefore represented by the normalised wall-clock
tuple. -/

structure LocalDT where
  year : Nat
  month : Nat
  day : Nat
  hour : Nat
  minute : Nat
  second : Nat
deriving DecidableEq, Repr

/-- The year is a leap year of the Gregorian calendar. -/
def isLeap (y : Nat) : Bool :=
  (y % 4 = 0 && y % 100 ≠ 0) || y % 400 = 0

/-- Number of days of a month, used to validate the day component. -/
def daysInMonth (y m : Nat) : Nat :=
  if m = 2 then (if isLeap y then 29 else 28)
  else if m = 4 ∨ m = 6 ∨ m = 9 ∨ m = 11 then 30
  else 31

/-- Parse the `YYYY-MM-DD` part of a `datetime-local` string. -/
def parseDatePart (cs : List Char) : Option (Nat × Nat × Nat) :=
  match splitOnChar '-' cs with
  | [ys, ms, ds] =>
    if ys.length = 4 ∧ ms.length = 2 ∧ ds.length = 2 then
      match digitsToNat ys, digitsToNat ms, digitsToNat ds with
      | some y, some m, some d =>
        if 1 ≤ m ∧ m ≤ 12 ∧ 1 ≤ d ∧ d ≤ daysInMonth y m then some (y, m, d) else none
      | _, _, _ => none
    else none
  | _ => none

/-- Parse the `HH:MM` or `HH:MM:SS` part of a `datetime-local` string. -/
def parseTimePart (cs : List Char) : Option (Nat × Nat × Nat) :=
  match splitOnChar ':' cs with
  | [hs, ms] =>
    if hs.length = 2 ∧ ms.length = 2 then
      match digitsToNat hs, digitsToNat ms with
      | some h, some mi => if h ≤ 23 ∧ mi ≤ 59 then some (h, mi, 0) else none
      | _, _ => none
    else none
  | [hs, ms, ss] =>
    if hs.length = 2 ∧ ms.length = 2 ∧ ss.length = 2 then
      match digitsToNat hs, digitsToNat ms, digitsToNat ss with
      | some h, some mi, some s2 =>
        if h ≤ 23 ∧ mi ≤ 59 ∧ s2 ≤ 59 then some (h, mi, s2) else none
      | _, _, _ => none
    else none
  | _ => none

/-- Model of `datetimeLocalToIso` (`app/activities/new/page.tsx`): trim,
`null` when blank, `new Date(v)` on the `datetime-local` format (seconds
optional), `null` when invalid, else the resolved absolute instant. -/
def datetimeLocalToIso (dtLocal : String) : Option LocalDT :=
  let v := trimChars dtLocal.data
  if v = [] then none
  else
    match splitOnChar 'T' v with
    | [ds, ts] =>
      match parseDatePart ds, parseTimePart ts with
      | some (y, m, d), some (h, mi, s2) => some ⟨y, m, d, h, mi, s2⟩
      | _, _ => none
    | _ => none

/-- Resolve every candidate of a list, failing when any candidate fails
(the `uniqueDates.map` loop that throws on the first invalid date). -/
def resolveAll (resolve : String → Option LocalDT) : List String → Option (List LocalDT)
  | [] => some []
  | d :: ds =>
    match resolve d, resolveAll resolve ds with
    | some i, some is => some (i :: is)
    | _, _ => none

/-! ## Raw-string de-duplication

`Array.from(new Set(cleanDates))` keeps the first occurrence of every raw
candidate string, in order. -/

/-- Helper of `firstDedup`, carrying the set of strings already seen. -/
def firstDedupAux (seen : List String) : List String → List String
  | [] => []
  | x :: xs =>
    if x ∈ seen then firstDedupAux seen xs
    else x :: firstDedupAux (x :: seen) xs

/-- Model of `Array.from(new Set(l))`: duplicates removed, first
occurrences kept in order. -/
def firstDedup (l : List String) : List String :=
  firstDedupAux [] l

theorem firstDedupAux_length_le (l : List String) :
    ∀ seen, (firstDedupAux seen l).length ≤ l.length := by
  induction l with
  | nil => intro seen; simp [firstDedupAux]
  | cons x xs ih =>
    intro seen
    simp only [firstDedupAux]
    split
    · exact le_trans (ih seen) (Nat.le_succ _)
    · simpa using ih (x :: seen)

theorem firstDedupAux_length_lt_of_seen (l : List String) :
    ∀ seen, (∃ y ∈ l, y ∈ seen) → (firstDedupAux seen l).length < l.length := by
  induction l with
  | nil => intro seen h; simp at h
  | cons x xs ih =>
    intro seen h
    simp only [firstDedupAux]
    split
    · exact Nat.lt_succ_of_le (firstDedupAux_length_le xs seen)
    · rename_i hx
      obtain ⟨y, hy, hys⟩ := h
      rcases List.mem_cons.mp hy with rfl | hmem
      · exact absurd hys hx
      · have : ∃ y ∈ xs, y ∈ x :: seen := ⟨y, hmem, List.mem_cons_of_mem _ hys⟩
        simpa using ih (x :: seen) this

theorem firstDedupAux_length_lt_of_dup (l : List String) :
    ∀ seen, ¬ l.Nodup → (firstDedupAux seen l).length < l.length := by
  induction l with
  | nil => intro seen h; exact absurd List.nodup_nil h
  | cons x xs ih =>
    intro seen h
    simp only [firstDedupAux]
    split
    · exact Nat.lt_succ_of_le (firstDedupAux_length_le xs seen)
    · rw [List.nodup_cons, not_and_or] at h
      rcases h with hx | hxs
      · push_neg at hx
        have : ∃ y ∈ xs, y ∈ x :: seen := ⟨x, hx, List.mem_cons_self x seen⟩
        simpa using firstDedupAux_length_lt_of_seen xs (x :: seen) this
      · simpa using ih (x :: seen) hxs

theorem firstDedup_length_lt_of_dup (l : List String) (h : ¬ l.Nodup) :
    (firstDedup l).length < l.length :=
  firstDedupAux_length_lt_of_dup l [] h

/-! ## Guard combinators

Each `if (!cond) throw new Error(msg)` line of the handlers is one `req`;
each `Number`-parse-and-check block is one `bindE` of a small parser. -/

/-- Continue with `k` when `c` holds, otherwise throw `msg`. -/
def req (c : Prop) [Decidable c] (msg : String) (k : Except String α) :
    Except String α :=
  if c then k else .error msg

/-- Continue with `k b` when the optional value is present, else throw. -/
def reqSome (o : Option β) (msg : String) (k : β → Except String α) :
    Except String α :=
  match o with
  | none => .error msg
  | some b => k b

/-- Sequence two fallible steps (the second JS statement after a throwing
check). -/
def bindE (e : Except String β) (k : β → Except String α) : Except String α :=
  match e with
  | .error msg => .error msg
  | .ok b => k b

theorem req_ok {c : Prop} [Decidable c] {msg : String} {k : Except String α}
    {x : α} : req c msg k = .ok x ↔ c ∧ k = .ok x := by
  unfold req
  split <;> simp_all

theorem reqSome_ok {o : Option β} {msg : String} {k : β → Except String α}
    {x : α} : reqSome o msg k = .ok x ↔ ∃ b, o = some b ∧ k b = .ok x := by
  cases o <;> simp [reqSome]

theorem bindE_ok {e : Except String β} {k : β → Except String α} {x : α} :
    bindE e k = .ok x ↔ ∃ b, e = .ok b ∧ k b = .ok x := by
  cases e <;> simp [bindE]

/-! ## Multi-Date Publication Expander

Shallow embedding of `handleCreate` in `app/activities/new/page.tsx`.
The authoring form is taken as raw strings, exactly as the React state
holds them.  The optional image is modelled as the storage path the
upload would produce (object storage is an external collaborator). -/

structure NewForm where
  title : String
  sport : String
  dates : List String
  addressText : String
  city : String
  stateUS : String
  capacity : String
  waitlist : String
  priceUsd : String
  whatsapp : String
  description : String
  imageFile : Option String
deriving DecidableEq, Repr

/-- One row of the bulk `insert` into `app_activities` (shape shared by the
create and edit handlers; nullable columns are `Option`). -/
structure NewRow where
  created_by : String
  organizer_id : String
  title : String
  sport : String
  activity_type : String
  description : Option String
  start_date : LocalDT
  address_text : String
  location_text : String
  city : String
  state : String
  capacity : Option JsNum
  waitlist_capacity : Option JsNum
  price_cents : Int
  organizer_whatsapp : Option String
  image_path : Option String
  is_public : Bool
  published : Bool
deriving DecidableEq, Repr

/-- The trimmed candidate date list (`dates.map(d => d.trim()).filter(Boolean)`). -/
def cleanDatesList (ds : List String) : List String :=
  (ds.map strTrim).filter (· ≠ "")

/-- The trimmed candidate date list (`cleanDates` in `handleCreate`). -/
def cleanDatesOf (f : NewForm) : List String :=
  cleanDatesList f.dates

/-- Capacity validation of `handleCreate`: mandatory, finite and `> 0`. -/
def parseCapacityRequired (s : String) : Except String JsNum :=
  if strTrim s = "" then .error "Capacity * é obrigatório."
  else
    match jsNumber s with
    | none => .error "Capacity deve ser um número > 0."
    | some n => if n.isPos then .ok n else .error "Capacity deve ser um número > 0."

/-- Waitlist validation of `handleCreate`: blank means `0`, else finite
and `>= 0`. -/
def parseWaitlist (s : String) : Except String JsNum :=
  if strTrim s = "" then .ok ⟨false, 0, 0, 0⟩
  else
    match jsNumber s with
    | none => .error "Waitlist deve ser vazio ou número >= 0."
    | some wn =>
      if wn.isNeg then .error "Waitlist deve ser vazio ou número >= 0." else .ok wn

/-- The row built for one resolved date inside the `uniqueDates.map` of
`handleCreate`; every field except `start_date` comes from the shared
validated form content. -/
def mkNewRow (uid : String) (f : NewForm) (capN waitN : JsNum) (cents : Int)
    (iso : LocalDT) : NewRow where
  created_by := uid
  organizer_id := uid
  title := strTrim f.title
  sport := strTrim f.sport
  activity_type := strTrim f.sport
  description := if strTrim f.description = "" then none else some (strTrim f.description)
  start_date := iso
  address_text := strTrim f.addressText
  location_text := strTrim f.addressText
  city := strTrim f.city
  state := strTrim f.stateUS
  capacity := some capN
  waitlist_capacity := some waitN
  price_cents := cents
  organizer_whatsapp := some (strTrim f.whatsapp)
  image_path := f.imageFile
  is_public := true
  published := true

/-- Shallow embedding of `handleCreate` (`app/activities/new/page.tsx`),
parameterised by the date-resolution function so that the raw-string
duplicate check can be stated independently of time-zone resolution.
Returns the validated batch of rows handed to the single bulk
`insert(rows)`, or the thrown validation error. -/
def handleCreateWith (resolve : String → Option LocalDT) (user : Option String)
    (f : NewForm) : Except String (List NewRow) :=
  reqSome user "Você precisa estar logado para criar atividade." fun uid =>
  req (3 ≤ strLen (strTrim f.title)) "Title * é obrigatório." <|
  req (2 ≤ strLen (strTrim f.sport)) "Sport * é obrigatório." <|
  req (cleanDatesOf f ≠ []) "Adicione pelo menos 1 Date & Time *." <|
  req ((firstDedup (cleanDatesOf f)).length = (cleanDatesOf f).length)
    "Você adicionou datas repetidas. Remova as duplicadas." <|
  req (5 ≤ strLen (strTrim f.addressText)) "Address (texto completo) * é obrigatório." <|
  req (2 ≤ strLen (strTrim f.city)) "City * é obrigatório." <|
  req (2 ≤ strLen (strTrim f.stateUS)) "State * é obrigatório." <|
  bindE (parseCapacityRequired f.capacity) fun capN =>
  bindE (parseWaitlist f.waitlist) fun waitN =>
  req (strTrim f.priceUsd ≠ "") "Price (USD) * é obrigatório." <|
  reqSome (toCents f.priceUsd) "Price (USD) inválido." fun cents =>
  req (6 ≤ strLen (strTrim f.whatsapp)) "WhatsApp do organizador * é obrigatório." <|
  reqSome (resolveAll resolve (firstDedup (cleanDatesOf f))) "Uma das datas está inválida."
    fun insts => .ok (insts.map (mkNewRow uid f capN waitN cents))

/-- The expander with the date resolution the page actually uses. -/
def handleCreate (user : Option String) (f : NewForm) : Except String (List NewRow) :=
  handleCreateWith datetimeLocalToIso user f

/-- Effect of one submission on the `app_activities` table: the rows of a
successful validation are written by a single bulk insert, a thrown error
writes nothing. -/
def runCreateWith (resolve : String → Option LocalDT) (user : Option String)
    (f : NewForm) (store : List NewRow) : List NewRow :=
  match handleCreateWith resolve user f with
  | .ok rows => store ++ rows
  | .error _ => store

/-- Forget the start instant of a row (used to state that sibling rows are
content-identical except for `start_date`). -/
def eraseStart (r : NewRow) : NewRow :=
  { r with start_date := ⟨0, 0, 0, 0, 0, 0⟩ }

theorem resolveAll_length {resolve : String → Option LocalDT} :
    ∀ {l : List String} {insts : List LocalDT},
      resolveAll resolve l = some insts → insts.length = l.length := by
  intro l
  induction l with
  | nil => intro insts h; simp [resolveAll] at h; simp [← h]
  | cons d ds ih =>
    intro insts h
    unfold resolveAll at h
    rcases hr : resolve d with _ | i <;> rw [hr] at h
    · exact Option.noConfusion h
    · rcases ha : resolveAll resolve ds with _ | is <;> rw [ha] at h
      · exact Option.noConfusion h
      · cases h
        simp [ih ha]

theorem parseCapacityRequired_ok {s : String} {n : JsNum}
    (h : parseCapacityRequired s = .ok n) : strTrim s ≠ "" ∧ n.isPos = true := by
  unfold parseCapacityRequired at h
  split at h
  · exact Except.noConfusion h
  · rename_i hs
    split at h
    · exact Except.noConfusion h
    · split at h
      · cases h; exact ⟨hs, by assumption⟩
      · exact Except.noConfusion h

/-- Inversion of a successful expansion: the raw candidate strings were
duplicate-free, capacity was present, and the produced rows are exactly one
per (deduplicated) raw candidate, with matching resolved instants and
content identical except for `start_date`. -/
theorem handleCreateWith_ok {resolve : String → Option LocalDT}
    {user : Option String} {f : NewForm} {rows : List NewRow}
    (h : handleCreateWith resolve user f = .ok rows) :
    (firstDedup (cleanDatesOf f)).length = (cleanDatesOf f).length ∧
    strTrim f.capacity ≠ "" ∧
    ∃ insts, resolveAll resolve (firstDedup (cleanDatesOf f)) = some insts ∧
      rows.map (·.start_date) = insts ∧
      rows.length = (firstDedup (cleanDatesOf f)).length ∧
      ∀ r1 ∈ rows, ∀ r2 ∈ rows, eraseStart r1 = eraseStart r2 := by
  unfold handleCreateWith at h
  rw [reqSome_ok] at h
  obtain ⟨uid, -, h⟩ := h
  rw [req_ok] at h
  obtain ⟨-, h⟩ := h
  rw [req_ok] at h
  obtain ⟨-, h⟩ := h
  rw [req_ok] at h
  obtain ⟨-, h⟩ := h
  rw [req_ok] at h
  obtain ⟨hdl, h⟩ := h
  rw [req_ok] at h
  obtain ⟨-, h⟩ := h
  rw [req_ok] at h
  obtain ⟨-, h⟩ := h
  rw [req_ok] at h
  obtain ⟨-, h⟩ := h
  rw [bindE_ok] at h
  obtain ⟨capN, hcap, h⟩ := h
  rw [bindE_ok] at h
  obtain ⟨waitN, -, h⟩ := h
  rw [req_ok] at h
  obtain ⟨-, h⟩ := h
  rw [reqSome_ok] at h
  obtain ⟨cents, -, h⟩ := h
  rw [req_ok] at h
  obtain ⟨-, h⟩ := h
  rw [reqSome_ok] at h
  obtain ⟨insts, hres, h⟩ := h
  cases h
  refine ⟨hdl, (parseCapacityRequired_ok hcap).1, insts, hres, ?_, ?_, ?_⟩
  · clear hres
    induction insts with
    | nil => rfl
    | cons i is ih => simpa [mkNewRow] using ih
  · simpa using resolveAll_length hres
  · intro r1 h1 r2 h2
    obtain ⟨i1, -, rfl⟩ := List.mem_map.mp h1
    obtain ⟨i2, -, rfl⟩ := List.mem_map.mp h2
    rfl

/-! ## Edit-time variant of the expander

Shallow embedding of `handleSave` in `app/activities/[id]/edit/page.tsx`:
the first resolved date updates the existing record in place, extra dates
create sibling rows.  Capacity is optional here (blank means unlimited). -/

structure EditActivity where
  created_by : String
  image_path : Option String
  is_public : Option Bool
  published : Option Bool
deriving DecidableEq, Repr

structure EditForm where
  userId : Option String
  activity : Option EditActivity
  title : String
  sport : String
  dates : List String
  addressText : String
  city : String
  stateUS : String
  capacity : String
  waitlist : String
  priceUsd : String
  whatsapp : String
  description : String
  imageFile : Option String
deriving DecidableEq, Repr

/-- The `update(payload)` written to the existing `app_activities` row. -/
structure EditPayload where
  title : String
  sport : String
  activity_type : String
  description : String
  start_date : LocalDT
  address_text : String
  location_text : String
  city : String
  state : String
  capacity : Option JsNum
  waitlist_capacity : Option JsNum
  price_cents : Int
  organizer_whatsapp : Option String
  image_path : Option String
  is_public : Bool
  published : Bool
deriving DecidableEq, Repr

/-- Outcome of `handleSave`: login redirect, a thrown error, or the update
payload together with the sibling rows inserted for the extra dates. -/
inductive SaveResult where
  | redirectLogin : SaveResult
  | failed : String → SaveResult
  | saved : EditPayload → List NewRow → SaveResult
deriving DecidableEq, Repr

/-- Guard combinator for the edit handler (throwing `catch` sets the error). -/
def reqF (c : Prop) [Decidable c] (msg : String) (k : SaveResult) : SaveResult :=
  if c then k else .failed msg

/-- Run a fallible parse inside the edit handler. -/
def bindF (e : Except String β) (k : β → SaveResult) : SaveResult :=
  match e with
  | .error msg => .failed msg
  | .ok b => k b

/-- Continue when the optional value is present, else fail. -/
def reqSomeF (o : Option β) (msg : String) (k : β → SaveResult) : SaveResult :=
  match o with
  | none => .failed msg
  | some b => k b

/-- Capacity validation of the edit handler: blank means unlimited
(`null`), otherwise finite and `> 0`. -/
def parseCapacityOptional (s : String) : Except String (Option JsNum) :=
  if strTrim s = "" then .ok none
  else
    match jsNumber s with
    | none => .error "Capacity must be empty (unlimited) or a number > 0."
    | some n =>
      if n.isPos then .ok (some n)
      else .error "Capacity must be empty (unlimited) or a number > 0."

/-- Waitlist validation of the edit handler: blank means `0`. -/
def parseWaitlistEdit (s : String) : Except String JsNum :=
  if strTrim s = "" then .ok ⟨false, 0, 0, 0⟩
  else
    match jsNumber s with
    | none => .error "Waitlist must be empty or a number >= 0."
    | some wn =>
      if wn.isNeg then .error "Waitlist must be empty or a number >= 0." else .ok wn

/-- One sibling row created for an extra date by the edit handler. -/
def mkEditRow (uid : String) (f : EditForm) (capN : Option JsNum) (waitN : JsNum)
    (cents : Int) (whatsappValue : Option String) (newImagePath : Option String)
    (isPublic published : Bool) (iso : LocalDT) : NewRow where
  created_by := uid
  organizer_id := uid
  title := strTrim f.title
  sport := strTrim f.sport
  activity_type := strTrim f.sport
  description := some (strTrim f.description)
  start_date := iso
  address_text := strTrim f.addressText
  location_text := strTrim f.addressText
  city := strTrim f.city
  state := strTrim f.stateUS
  capacity := capN
  waitlist_capacity := some waitN
  price_cents := cents
  organizer_whatsapp := whatsappValue
  image_path := newImagePath
  is_public := isPublic
  published := published

/-- Tail of `handleSave` once validation has passed: build the update
payload and the sibling rows for the extra dates. -/
def saveWith (uid : String) (f : EditForm) (act : EditActivity)
    (capN : Option JsNum) (waitN : JsNum) (cents : Int)
    (firstIso : LocalDT) (extraIso : List LocalDT) : SaveResult :=
  let whatsappValue := if strTrim f.whatsapp = "" then none else some (strTrim f.whatsapp)
  let newImagePath := match f.imageFile with
    | some p => some p
    | none => act.image_path
  let isPublic := act.is_public.getD true
  let published := act.published.getD true
  .saved
    { title := strTrim f.title
      sport := strTrim f.sport
      activity_type := strTrim f.sport
      description := strTrim f.description
      start_date := firstIso
      address_text := strTrim f.addressText
      location_text := strTrim f.addressText
      city := strTrim f.city
      state := strTrim f.stateUS
      capacity := capN
      waitlist_capacity := some waitN
      price_cents := cents
      organizer_whatsapp := whatsappValue
      image_path := newImagePath
      is_public := isPublic
      published := published }
    (extraIso.map (mkEditRow uid f capN waitN cents whatsappValue newImagePath isPublic published))

/-- Shallow embedding of `handleSave` (`app/activities/[id]/edit/page.tsx`):
auth guard, owner check, the same date rules as the create page, optional
capacity (blank = unlimited), then one in-place update with the first
resolved date and sibling inserts for the remaining dates. -/
def handleSaveEdit (f : EditForm) : SaveResult :=
  match f.userId with
  | none => .redirectLogin
  | some uid =>
    match f.activity with
    | none => .failed "You do not have permission to edit this activity."
    | some act =>
      reqF (act.created_by = uid) "You do not have permission to edit this activity." <|
      reqF (3 ≤ strLen (strTrim f.title)) "Title * is required." <|
      reqF (2 ≤ strLen (strTrim f.sport)) "Sport * is required." <|
      reqF (cleanDatesList f.dates ≠ []) "Add at least 1 Date & Time *." <|
      reqF ((firstDedup (cleanDatesList f.dates)).length = (cleanDatesList f.dates).length)
        "You added duplicate dates. Remove duplicates." <|
      reqSomeF (resolveAll datetimeLocalToIso (firstDedup (cleanDatesList f.dates)))
        "One of the dates is invalid." fun isoDates =>
      match isoDates with
      | [] => .failed "One of the dates is invalid."
      | firstIso :: extraIso =>
        reqF (5 ≤ strLen (strTrim f.addressText)) "Address * is required." <|
        reqF (2 ≤ strLen (strTrim f.city)) "City * is required." <|
        reqF (2 ≤ strLen (strTrim f.stateUS)) "State * is required." <|
        bindF (parseCapacityOptional f.capacity) fun capN =>
        bindF (parseWaitlistEdit f.waitlist) fun waitN =>
        reqF (strTrim f.priceUsd ≠ "") "Price (USD) * is required." <|
        reqSomeF (toCents f.priceUsd) "Invalid Price (USD)." fun cents =>
        reqF (10 ≤ strLen (strTrim f.description))
          "Description * is required (please add a bit more detail)." <|
        saveWith uid f act capN waitN cents firstIso extraIso

/-! ## Stable ordering of query results

`order("created_at", ascending).` on the insertion-ordered row list is a
stable sort by timestamp: rows with equal timestamps keep their
insertion/id order. -/

/-- Insert an element into a list sorted by `key`, after all strictly
smaller keys and before the first equal-or-larger key. -/
def insertOn (key : α → Nat) (x : α) : List α → List α
  | [] => [x]
  | y :: ys => if key x ≤ key y then x :: y :: ys else y :: insertOn key x ys

/-- Stable sort by `key` (insertion sort: earlier rows stay before later
rows with an equal key). -/
def sortOn (key : α → Nat) : List α → List α
  | [] => []
  | x :: xs => insertOn key x (sortOn key xs)

theorem mem_insertOn {key : α → Nat} {x z : α} :
    ∀ {l : List α}, z ∈ insertOn key x l → z = x ∨ z ∈ l := by
  intro l
  induction l with
  | nil => intro h; simpa [insertOn] using h
  | cons y ys ih =>
    intro h
    unfold insertOn at h
    split at h
    · simpa using h
    · rcases List.mem_cons.mp h with rfl | h2
      · exact Or.inr (List.mem_cons_self _ _)
      · rcases ih h2 with h3 | h3
        · exact Or.inl h3
        · exact Or.inr (List.mem_cons_of_mem _ h3)

theorem pairwise_insertOn {key : α → Nat} {x : α} :
    ∀ {l : List α}, l.Pairwise (fun a b => key a ≤ key b) →
      (insertOn key x l).Pairwise (fun a b => key a ≤ key b) := by
  intro l
  induction l with
  | nil => intro _; simp [insertOn]
  | cons y ys ih =>
    intro hp
    rw [List.pairwise_cons] at hp
    unfold insertOn
    split
    · rename_i hxy
      rw [List.pairwise_cons]
      constructor
      · intro z hz
        rcases List.mem_cons.mp hz with rfl | h2
        · exact hxy
        · exact le_trans hxy (hp.1 z h2)
      · rw [List.pairwise_cons]
        exact hp
    · rename_i hxy
      rw [List.pairwise_cons]
      refine ⟨?_, ih hp.2⟩
      intro z hz
      rcases mem_insertOn hz with rfl | h2
      · exact le_of_lt (Nat.lt_of_not_le hxy)
      · exact hp.1 z h2

theorem pairwise_sortOn (key : α → Nat) :
    ∀ l : List α, (sortOn key l).Pairwise (fun a b => key a ≤ key b) := by
  intro l
  induction l with
  | nil => simp [sortOn]
  | cons x xs ih => exact pairwise_insertOn ih

theorem filter_insertOn (key : α → Nat) (t : Nat) (x : α) :
    ∀ l : List α,
      (insertOn key x l).filter (fun y => key y = t) =
        if key x = t then x :: l.filter (fun y => key y = t)
        else l.filter (fun y => key y = t) := by
  intro l
  induction l with
  | nil => by_cases h : key x = t <;> simp [insertOn, h]
  | cons y ys ih =>
    unfold insertOn
    split
    · rename_i hxy
      by_cases hx : key x = t <;> simp [List.filter, hx]
    · rename_i hxy
      have hylt : key y < key x := Nat.lt_of_not_le hxy
      by_cases hx : key x = t
      · have hy : ¬ key y = t := by omega
        simp [List.filter, hy, hx, ih]
      · by_cases hy : key y = t <;> simp [List.filter, hy, hx, ih]

theorem filter_sortOn (key : α → Nat) (t : Nat) :
    ∀ l : List α,
      (sortOn key l).filter (fun y => key y = t) = l.filter (fun y => key y = t) := by
  intro l
  induction l with
  | nil => rfl
  | cons x xs ih =>
    unfold sortOn
    rw [filter_insertOn]
    by_cases hx : key x = t <;> simp [List.filter, hx, ih]

theorem length_insertOn (key : α → Nat) (x : α) :
    ∀ l : List α, (insertOn key x l).length = l.length + 1 := by
  intro l
  induction l with
  | nil => rfl
  | cons y ys ih =>
    unfold insertOn
    split <;> simp [ih]

theorem length_sortOn (key : α → Nat) :
    ∀ l : List α, (sortOn key l).length = l.length := by
  intro l
  induction l with
  | nil => rfl
  | cons x xs ih =>
    unfold sortOn
    rw [length_insertOn, ih]
    rfl

theorem filter_take_of_filter (q : α → Bool) :
    ∀ (l : List α) (n : Nat), ∃ m, (l.take n).filter q = (l.filter q).take m := by
  intro l
  induction l with
  | nil => intro n; exact ⟨0, by simp⟩
  | cons x xs ih =>
    intro n
    cases n with
    | zero => exact ⟨0, by simp⟩
    | succ n =>
      obtain ⟨m, hm⟩ := ih n
      by_cases hx : q x
      · exact ⟨m + 1, by simp [List.filter, hx, hm]⟩
      · exact ⟨m, by simp [List.filter, hx, hm]⟩

/-! ## Activity detail page: store and attendance coordinator

The relevant tables of the relational store, as insertion-ordered row
lists.  `app_activity_attendees` rows carry the composite `(activity_id,
user_id)` identity and their creation timestamp. -/

/-- Row of `app_activities` as selected by the detail page (`ActivityRow`);
`capacity` is `Option` because the page guards it with
`typeof activity?.capacity === "number"`. -/
structure ActivityRec where
  id : String
  created_by : String
  capacity : Option Int
deriving DecidableEq, Repr

/-- Row of `app_activity_attendees`. -/
structure AttRow where
  activity_id : String
  user_id : String
  created_at : Nat
deriving DecidableEq, Repr

/-- Row of `profiles` as read by the page (`ProfileMini`). -/
structure Profile where
  id : String
  full_name : Option String
  email : Option String
deriving DecidableEq, Repr

/-- Row of `app_activity_messages` (`ActivityMessageRow`). -/
structure MsgRow where
  id : String
  activity_id : String
  user_id : String
  message : String
  created_at : Nat
deriving DecidableEq, Repr

/-- The store, as seen by the activity detail page. -/
structure Db where
  activities : List ActivityRec
  attendees : List AttRow
  profiles : List Profile
  messages : List MsgRow
deriving DecidableEq, Repr

/-- Modelled from the spec: the `app_activity_confirmed_count` RPC (its
SQL body is not part of the repository sources) returns the confirmed
count for an activity — the number of `AttendanceEntry` rows, derived by
query (`fetchConfirmedCount`). -/
def confirmedCountRPC (db : Db) (aid : String) : Nat :=
  (db.attendees.filter (fun r => r.activity_id = aid)).length

/-- Model of `fetchIsConfirmed`: the caller has an `app_activity_attendees`
row for the pair (`maybeSingle` on both equality filters). -/
def isConfirmed (db : Db) (aid uid : String) : Bool :=
  db.attendees.any (fun r => r.activity_id = aid && r.user_id = uid)

/-- The insert branch of `handleConfirmToggle`: one row for the pair is
appended to `app_activity_attendees` (the store assigns `created_at`). -/
def confirmStep (db : Db) (aid uid : String) (now : Nat) : Db :=
  { db with attendees := db.attendees ++ [⟨aid, uid, now⟩] }

/-- The delete branch of `handleConfirmToggle`:
`delete().eq("activity_id", …).eq("user_id", …)` removes every row of the
pair. -/
def cancelStep (db : Db) (aid uid : String) : Db :=
  { db with attendees :=
      db.attendees.filter (fun r => !(r.activity_id = aid && r.user_id = uid)) }

/-- Outcome reported by `handleConfirmToggle` (redirect to `/login`, the
"Attendance confirmed." info, or the "Attendance canceled." info). -/
inductive ToggleOutcome where
  | redirectLogin : ToggleOutcome
  | confirmedOk : ToggleOutcome
  | canceledOk : ToggleOutcome
deriving DecidableEq, Repr

/-- Shallow embedding of `handleConfirmToggle`
(`app/activities/[id]/page.tsx`): anonymous callers are redirected to
login; otherwise, when the caller is not confirmed the pair is inserted,
else the pair is deleted.  The `isConfirmed` state is the fresh membership
of the pair in the store (`fetchIsConfirmed` runs after every change). -/
def handleConfirmToggle (db : Db) (aid : String) (user : Option String)
    (now : Nat) : ToggleOutcome × Db :=
  match user with
  | none => (.redirectLogin, db)
  | some uid =>
    if !isConfirmed db aid uid then
      (.confirmedOk, confirmStep db aid uid now)
    else
      (.canceledOk, cancelStep db aid uid)

/-- Number of attendance rows of one `(activity, user)` pair. -/
def pairCount (db : Db) (aid uid : String) : Nat :=
  (db.attendees.filter (fun r => r.activity_id = aid && r.user_id = uid)).length

/-! ## Spots-left display -/

/-- The `typeof activity?.capacity === "number" ? activity.capacity : 0`
coercion of the detail page. -/
def capOrZero (capacity : Option Int) : Int :=
  match capacity with
  | some c => c
  | none => 0

/-- Model of the spots-left display:
`Math.max(0, cap - (confirmedCount ?? 0))`. -/
def spotsLeft (capacity : Option Int) (confirmedCount : Int) : Int :=
  max 0 (capOrZero capacity - confirmedCount)

/-! ## Roster views -/

/-- Display name of a user, joined from `profiles`. -/
def profileName (db : Db) (uid : String) : Option String :=
  (db.profiles.find? (fun p => p.id = uid)).bind (fun p => p.full_name)

/-- Email of a user, joined from `profiles`. -/
def profileEmail (db : Db) (uid : String) : Option String :=
  (db.profiles.find? (fun p => p.id = uid)).bind (fun p => p.email)

/-- Coarse avatar identity (`AttendeeAvatar`): user id and display name
only. -/
structure AttendeeAvatar where
  user_id : String
  full_name : Option String
deriving DecidableEq, Repr

/-- Row returned to the creator (`CreatorAttendeeRow`): contact-level
fields. -/
structure CreatorAttendeeRow where
  user_id : Option String
  full_name : Option String
  email : Option String
  confirmed_at : Option Nat
deriving DecidableEq, Repr

/-- Model of `fetchAttendeeAvatars`: empty for anonymous viewers,
otherwise the attendee rows of the activity ordered by `created_at`
ascending, each carrying only `user_id` and the joined
`profiles(full_name)`. -/
def fetchAttendeeAvatars (db : Db) (aid : String) (viewer : Option String) :
    List AttendeeAvatar :=
  match viewer with
  | none => []
  | some _ =>
    (sortOn (fun r => r.created_at) (db.attendees.filter (fun r => r.activity_id = aid))).map
      (fun r => ⟨r.user_id, profileName db r.user_id⟩)

/-- The detail page's owner check: the logged user id equals the
activity's `created_by`. -/
def isOwner (db : Db) (aid uid : String) : Bool :=
  match db.activities.find? (fun a => a.id = aid) with
  | some a => a.created_by = uid
  | none => false

/-- Modelled from the spec: the `app_activity_confirmed_list_for_creator`
RPC (its SQL body is not part of the repository sources) returns the full
roster of confirmed attendees with contact-level fields (name, email) for
each. -/
def creatorRosterRPC (db : Db) (aid : String) : List CreatorAttendeeRow :=
  (db.attendees.filter (fun r => r.activity_id = aid)).map
    (fun r => ⟨some r.user_id, profileName db r.user_id, profileEmail db r.user_id,
      some r.created_at⟩)

/-- Model of `fetchCreatorList`: the creator-only roster; non-owners get
the empty list (`if (!isOwner) setCreatorAttendees([])`). -/
def fetchCreatorList (db : Db) (aid uid : String) : List CreatorAttendeeRow :=
  if isOwner db aid uid then creatorRosterRPC db aid else []

/-- Rewrite every profile email with `f` (same profiles, same names,
arbitrary other emails) — used to state that non-owner views cannot
depend on emails. -/
def rewriteEmails (f : String → Option String) (db : Db) : Db :=
  { db with profiles := db.profiles.map (fun p => { p with email := f p.id }) }

/-! ## Chat feed -/

/-- Model of `fetchChat`: anonymous viewers get an empty feed (no error);
logged viewers get the messages of the activity ordered by `created_at`
ascending, limited to 50. -/
def fetchChat (db : Db) (aid : String) (viewer : Option String) : List MsgRow :=
  match viewer with
  | none => []
  | some _ =>
    (sortOn (fun m => m.created_at) (db.messages.filter (fun m => m.activity_id = aid))).take 50

/-! ## Helper lemmas about the attendance store -/

theorem any_false_filter_self {p : α → Bool} {l : List α} (h : l.any p = false) :
    l.filter (fun a => !p a) = l := by
  rw [List.any_eq_false] at h
  exact List.filter_eq_self.mpr (fun a ha => by simpa using h a ha)

theorem any_false_filter_nil {p : α → Bool} {l : List α} (h : l.any p = false) :
    l.filter p = [] := by
  rw [List.any_eq_false] at h
  exact List.filter_eq_nil_iff.mpr h

/-- The pair predicate used by `isConfirmed`, `cancelStep` and `pairCount`. -/
def pairPred (aid uid : String) : AttRow → Bool :=
  fun r => r.activity_id = aid && r.user_id = uid

theorem pairPred_self (aid uid : String) (now : Nat) :
    pairPred aid uid ⟨aid, uid, now⟩ = true := by
  simp [pairPred]

theorem cancelStep_of_not_confirmed {db : Db} {aid uid : String}
    (h : isConfirmed db aid uid = false) : cancelStep db aid uid = db := by
  obtain ⟨acts, atts, profs, msgs⟩ := db
  unfold cancelStep
  simp only [Db.mk.injEq, and_true, true_and]
  exact any_false_filter_self h

theorem isConfirmed_cancelStep (db : Db) (aid uid : String) :
    isConfirmed (cancelStep db aid uid) aid uid = false := by
  unfold isConfirmed cancelStep
  simp only
  rw [List.any_eq_false]
  intro r hr
  have h2 := (List.mem_filter.mp hr).2
  simp only [Bool.not_eq_true'] at h2
  simp [h2]

theorem isConfirmed_confirmStep (db : Db) (aid uid : String) (now : Nat) :
    isConfirmed (confirmStep db aid uid now) aid uid = true := by
  unfold isConfirmed confirmStep
  simp

theorem cancel_after_confirm {db : Db} {aid uid : String}
    (h : isConfirmed db aid uid = false) (now : Nat) :
    cancelStep (confirmStep db aid uid now) aid uid = db := by
  obtain ⟨acts, atts, profs, msgs⟩ := db
  unfold cancelStep confirmStep
  simp only [Db.mk.injEq, and_true, true_and]
  rw [List.filter_append]
  have h1 : List.filter (fun r => !(r.activity_id = aid && r.user_id = uid)) atts = atts :=
    any_false_filter_self h
  rw [h1]
  simp

theorem pairCount_confirmStep {db : Db} {aid uid : String}
    (h : isConfirmed db aid uid = false) (now : Nat) :
    pairCount (confirmStep db aid uid now) aid uid = 1 := by
  unfold pairCount confirmStep
  simp only
  rw [List.filter_append]
  have h1 : List.filter (fun r => r.activity_id = aid && r.user_id = uid) db.attendees = [] :=
    any_false_filter_nil h
  rw [h1]
  simp

theorem confirmedCountRPC_confirmStep (db : Db) (aid uid : String) (now : Nat) :
    confirmedCountRPC (confirmStep db aid uid now) aid = confirmedCountRPC db aid + 1 := by
  unfold confirmedCountRPC confirmStep
  simp

/-! ## Concrete stores used by counterexamples and witnesses -/

/-- A store whose single activity has capacity 1 and one confirmed
attendee `u2` — the activity is full and has no waitlist. -/
def dbFull : Db :=
  { activities := [⟨"a1", "owner", some 1⟩]
    attendees := [⟨"a1", "u2", 0⟩]
    profiles := []
    messages := [] }

/-- A store whose single activity has no attendance yet. -/
def dbEmpty : Db :=
  { activities := [⟨"a1", "owner", some 5⟩]
    attendees := []
    profiles := []
    messages := [] }

/-! ## Claim C1 -/

/-- C1, counterexample: the activity of `dbFull` has capacity 1 and
confirmed count 1 (full, no waitlist), so the claimed evaluator verdict is
`Rejected` and `confirm` must fail with `CapacityExceeded` creating no
entry; but `handleConfirmToggle` performs no capacity evaluation — the
unconfirmed user `u1` is inserted and the operation succeeds, leaving the
confirmed count above capacity. -/
theorem c1_capacity_not_consulted_cex :
    (dbFull.activities.find? (fun a => a.id = "a1")).map (fun a => a.capacity)
      = some (some 1) ∧
    confirmedCountRPC dbFull "a1" = 1 ∧
    isConfirmed dbFull "a1" "u1" = false ∧
    (handleConfirmToggle dbFull "a1" (some "u1") 3).1 = .confirmedOk ∧
    isConfirmed (handleConfirmToggle dbFull "a1" (some "u1") 3).2 "a1" "u1" = true ∧
    confirmedCountRPC (handleConfirmToggle dbFull "a1" (some "u1") 3).2 "a1" = 2 := by
  decide

/-- C1, amended: on `confirm(activityId, userId)` by a user with no
existing `AttendanceEntry`, no capacity or waitlist evaluation happens
before the write: for every store — hence every capacity value and every
confirmed count — the entry is created and the operation succeeds; no
`CapacityExceeded` outcome exists in the confirm path. -/
theorem c1_confirm_never_rejected (db : Db) (aid uid : String) (now : Nat)
    (h : isConfirmed db aid uid = false) :
    (handleConfirmToggle db aid (some uid) now).1 = .confirmedOk ∧
    (handleConfirmToggle db aid (some uid) now).2.attendees
      = db.attendees ++ [⟨aid, uid, now⟩] ∧
    confirmedCountRPC (handleConfirmToggle db aid (some uid) now).2 aid
      = confirmedCountRPC db aid + 1 := by
  have htog : handleConfirmToggle db aid (some uid) now
      = (.confirmedOk, confirmStep db aid uid now) := by
    simp [handleConfirmToggle, h]
  rw [htog]
  exact ⟨rfl, rfl, confirmedCountRPC_confirmStep db aid uid now⟩

/-- C1, witness for the amended theorem at the full store. -/
theorem c1_confirm_never_rejected_witness :
    (handleConfirmToggle dbFull "a1" (some "u1") 3).1 = .confirmedOk ∧
    (handleConfirmToggle dbFull "a1" (some "u1") 3).2.attendees
      = dbFull.attendees ++ [⟨"a1", "u1", 3⟩] ∧
    confirmedCountRPC (handleConfirmToggle dbFull "a1" (some "u1") 3).2 "a1"
      = confirmedCountRPC dbFull "a1" + 1 :=
  c1_confirm_never_rejected dbFull "a1" "u1" 3 (by decide)

/-! ## Claim C4 -/

/-- C4, counterexample: the attendance operation is a toggle, not an
idempotent confirm.  Starting from a store where `u1` is not confirmed,
invoking it twice leaves zero `AttendanceEntry` rows for the pair and an
unchanged confirmed count (the claim demands exactly one entry and +1);
the second invocation — made while already confirmed — cancels instead of
being a no-op success. -/
theorem c4_toggle_cex :
    pairCount ((handleConfirmToggle
        ((handleConfirmToggle dbEmpty "a1" (some "u1") 1).2)
        "a1" (some "u1") 2).2) "a1" "u1" = 0 ∧
    confirmedCountRPC ((handleConfirmToggle
        ((handleConfirmToggle dbEmpty "a1" (some "u1") 1).2)
        "a1" (some "u1") 2).2) "a1" = confirmedCountRPC dbEmpty "a1" ∧
    isConfirmed ((handleConfirmToggle dbEmpty "a1" (some "u1") 1).2) "a1" "u1" = true ∧
    (handleConfirmToggle ((handleConfirmToggle dbEmpty "a1" (some "u1") 1).2)
        "a1" (some "u1") 2).1 = .canceledOk := by
  decide

/-- C4, amended: the operation is a toggle.  When the caller is not
confirmed it creates exactly one entry (never a duplicate) and raises the
confirmed count by one; when the caller is already confirmed it cancels
(removes the entry) instead of being a no-op; two successive invocations
from an unconfirmed state restore the store exactly. -/
theorem c4_toggle_semantics (db : Db) (aid uid : String) (now now2 : Nat) :
    (isConfirmed db aid uid = false →
      handleConfirmToggle db aid (some uid) now
        = (.confirmedOk, confirmStep db aid uid now) ∧
      pairCount (confirmStep db aid uid now) aid uid = 1 ∧
      confirmedCountRPC (confirmStep db aid uid now) aid = confirmedCountRPC db aid + 1 ∧
      (handleConfirmToggle ((handleConfirmToggle db aid (some uid) now).2)
          aid (some uid) now2).2 = db) ∧
    (isConfirmed db aid uid = true →
      handleConfirmToggle db aid (some uid) now = (.canceledOk, cancelStep db aid uid) ∧
      isConfirmed (cancelStep db aid uid) aid uid = false) := by
  constructor
  · intro h
    have htog : handleConfirmToggle db aid (some uid) now
        = (.confirmedOk, confirmStep db aid uid now) := by
      simp [handleConfirmToggle, h]
    refine ⟨htog, pairCount_confirmStep h now,
      confirmedCountRPC_confirmStep db aid uid now, ?_⟩
    rw [htog]
    have h2 : isConfirmed (confirmStep db aid uid now) aid uid = true :=
      isConfirmed_confirmStep db aid uid now
    simp only [handleConfirmToggle, h2]
    simpa using cancel_after_confirm h now
  · intro h
    constructor
    · simp [handleConfirmToggle, h]
    · exact isConfirmed_cancelStep db aid uid

/-- C4, witness for the amended theorem at the empty store. -/
theorem c4_toggle_semantics_witness :
    handleConfirmToggle dbEmpty "a1" (some "u1") 1
      = (.confirmedOk, confirmStep dbEmpty "a1" "u1" 1) ∧
    pairCount (confirmStep dbEmpty "a1" "u1" 1) "a1" "u1" = 1 ∧
    confirmedCountRPC (confirmStep dbEmpty "a1" "u1" 1) "a1"
      = confirmedCountRPC dbEmpty "a1" + 1 ∧
    (handleConfirmToggle ((handleConfirmToggle dbEmpty "a1" (some "u1") 1).2)
        "a1" (some "u1") 2).2 = dbEmpty :=
  (c4_toggle_semantics dbEmpty "a1" "u1" 1 2).1 (by decide)

/-! ## Claim C5 -/

/-- C5: `cancel` deletes the `AttendanceEntry` of the pair when present
and is a no-op when absent, and `cancel(a,u)` immediately after
`confirm(a,u)` restores the store — in particular the confirmed count —
exactly. -/
theorem c5_cancel_round_trip (db : Db) (aid uid : String) :
    (isConfirmed db aid uid = false → cancelStep db aid uid = db) ∧
    isConfirmed (cancelStep db aid uid) aid uid = false ∧
    (isConfirmed db aid uid = false → ∀ now : Nat,
      cancelStep (confirmStep db aid uid now) aid uid = db ∧
      confirmedCountRPC (cancelStep (confirmStep db aid uid now) aid uid) aid
        = confirmedCountRPC db aid) := by
  refine ⟨cancelStep_of_not_confirmed, isConfirmed_cancelStep db aid uid, ?_⟩
  intro h now
  rw [cancel_after_confirm h now]
  exact ⟨rfl, rfl⟩

/-- C5, witness at the empty store. -/
theorem c5_cancel_round_trip_witness :
    cancelStep dbEmpty "a1" "u1" = dbEmpty ∧
    cancelStep (confirmStep dbEmpty "a1" "u1" 4) "a1" "u1" = dbEmpty ∧
    confirmedCountRPC (cancelStep (confirmStep dbEmpty "a1" "u1" 4) "a1" "u1") "a1"
      = confirmedCountRPC dbEmpty "a1" :=
  ⟨(c5_cancel_round_trip dbEmpty "a1" "u1").1 (by decide),
    ((c5_cancel_round_trip dbEmpty "a1" "u1").2.2 (by decide) 4).1,
    ((c5_cancel_round_trip dbEmpty "a1" "u1").2.2 (by decide) 4).2⟩

/-! ## Claim C7 -/

/-- C7: for all numeric capacity values `c` and confirmed counts `k`, the
displayed spots-left value equals `max 0 (c - k)` and is never
negative. -/
theorem c7_spots_left_formula (c k : Int) :
    spotsLeft (some c) k = max 0 (c - k) ∧ 0 ≤ spotsLeft (some c) k :=
  ⟨rfl, le_max_left 0 _⟩

/-! ## Claim C10 -/

/-- C10: a `null`/missing capacity is coerced to 0 by the detail page, so
an unlimited-capacity activity always displays `Spots left: 0`, whatever
the confirmed count. -/
theorem c10_null_capacity_zero_spots (k : Nat) :
    capOrZero none = 0 ∧ spotsLeft none (k : Int) = 0 := by
  refine ⟨rfl, ?_⟩
  unfold spotsLeft capOrZero
  have hk : (0 : Int) - (k : Int) ≤ 0 := by omega
  simp [max_eq_left hk]

/-- Decidable equality of handler results (needed to evaluate the model
on concrete submissions). -/
instance instDecEqExcept [DecidableEq ε] [DecidableEq α] : DecidableEq (Except ε α) :=
  fun x y =>
    match x, y with
    | .error a, .error b => decidable_of_iff (a = b) (by simp)
    | .error _, .ok _ => isFalse (fun h => Except.noConfusion h)
    | .ok _, .error _ => isFalse (fun h => Except.noConfusion h)
    | .ok a, .ok b => decidable_of_iff (a = b) (by simp)

/-! ## Claim C2 -/

/-- C2: a submission whose trimmed candidate date list contains two equal
raw strings fails with a validation error and writes nothing — for every
resolution function, since the duplicate check runs on the raw strings
before time-zone resolution; and every failing submission leaves the
store unchanged (the rows are written by a single bulk insert, never a
partial subset). -/
theorem c2_duplicate_dates_atomic (resolve : String → Option LocalDT)
    (user : Option String) (f : NewForm) (store : List NewRow)
    (hdup : ¬ (cleanDatesOf f).Nodup) :
    (∃ e, handleCreateWith resolve user f = .error e) ∧
    runCreateWith resolve user f store = store ∧
    (∀ (g : NewForm) (e : String), handleCreateWith resolve user g = .error e →
      runCreateWith resolve user g store = store) := by
  have herr : ∃ e, handleCreateWith resolve user f = .error e := by
    rcases hres : handleCreateWith resolve user f with e | rows
    · exact ⟨e, rfl⟩
    · have hlen := (handleCreateWith_ok hres).1
      exact absurd hlen (Nat.ne_of_lt (firstDedup_length_lt_of_dup _ hdup))
  obtain ⟨e, he⟩ := herr
  refine ⟨⟨e, he⟩, by simp [runCreateWith, he], ?_⟩
  intro g e2 hg
  simp [runCreateWith, hg]

/-- A valid submission except that the same raw date string appears
twice. -/
def formDupDates : NewForm :=
  { title := "Run club"
    sport := "Running"
    dates := ["2025-01-01T10:00", "2025-01-01T10:00"]
    addressText := "123 Main Street"
    city := "Orlando"
    stateUS := "FL"
    capacity := "10"
    waitlist := ""
    priceUsd := "0"
    whatsapp := "+14075551234"
    description := ""
    imageFile := none }

/-- C2, witness: the duplicate-date submission fails and writes nothing. -/
theorem c2_duplicate_dates_atomic_witness :
    (∃ e, handleCreateWith datetimeLocalToIso (some "u1") formDupDates = .error e) ∧
    runCreateWith datetimeLocalToIso (some "u1") formDupDates [] = [] :=
  ⟨(c2_duplicate_dates_atomic datetimeLocalToIso (some "u1") formDupDates [] (by decide)).1,
    (c2_duplicate_dates_atomic datetimeLocalToIso (some "u1") formDupDates [] (by decide)).2.1⟩

/-! ## Claim C3 -/

/-- A valid submission with two distinct raw candidate strings that
resolve to the same absolute instant (`new Date` accepts the seconds part
as optional, and `10:00` equals `10:00:00`). -/
def formSameInstant : NewForm :=
  { title := "Run club"
    sport := "Running"
    dates := ["2025-01-01T10:00", "2025-01-01T10:00:00"]
    addressText := "123 Main Street"
    city := "Orlando"
    stateUS := "FL"
    capacity := "10"
    waitlist := ""
    priceUsd := "0"
    whatsapp := "+14075551234"
    description := ""
    imageFile := none }

/-- C3, counterexample: the expander creates one record per unique *raw*
candidate string, not per unique resolved absolute instant.  The two
distinct raw candidates of `formSameInstant` resolve to the same instant,
yet the submission succeeds with two records (sharing one `start_date`)
where the claim demands exactly one. -/
theorem c3_per_raw_string_cex :
    (cleanDatesOf formSameInstant).Nodup ∧
    (cleanDatesOf formSameInstant).length = 2 ∧
    datetimeLocalToIso "2025-01-01T10:00" = datetimeLocalToIso "2025-01-01T10:00:00" ∧
    (handleCreate (some "u1") formSameInstant).map List.length = .ok 2 ∧
    (handleCreate (some "u1") formSameInstant).map
      (fun rs => ((rs.map (fun r => r.start_date)).dedup).length) = .ok 1 := by
  decide

/-- C3, amended: a successful publication creates exactly one record per
distinct raw candidate date string (distinct raw candidates resolving to
the same absolute instant yield several records sharing that
`startInstant`), each record's `start_date` is the resolved instant of
its raw candidate, and all records are content-identical except for
`start_date`. -/
theorem c3_rows_shape (resolve : String → Option LocalDT) (user : Option String)
    (f : NewForm) (rows : List NewRow)
    (h : handleCreateWith resolve user f = .ok rows) :
    rows.length = (firstDedup (cleanDatesOf f)).length ∧
    (∃ insts, resolveAll resolve (firstDedup (cleanDatesOf f)) = some insts ∧
      rows.map (fun r => r.start_date) = insts) ∧
    ∀ r1 ∈ rows, ∀ r2 ∈ rows, eraseStart r1 = eraseStart r2 := by
  obtain ⟨-, -, insts, hres, hmap, hlen, hpair⟩ := handleCreateWith_ok h
  exact ⟨hlen, ⟨insts, hres, hmap⟩, hpair⟩

/-- C3, witness for the amended theorem at a concrete successful
submission. -/
theorem c3_rows_shape_witness :
    ((handleCreateWith datetimeLocalToIso (some "u1") formSameInstant).toOption.getD []).length
      = (firstDedup (cleanDatesOf formSameInstant)).length ∧
    (∃ insts, resolveAll datetimeLocalToIso (firstDedup (cleanDatesOf formSameInstant))
        = some insts ∧
      ((handleCreateWith datetimeLocalToIso (some "u1") formSameInstant).toOption.getD []).map
        (fun r => r.start_date) = insts) ∧
    ∀ r1 ∈ (handleCreateWith datetimeLocalToIso (some "u1") formSameInstant).toOption.getD [],
      ∀ r2 ∈ (handleCreateWith datetimeLocalToIso (some "u1") formSameInstant).toOption.getD [],
        eraseStart r1 = eraseStart r2 :=
  c3_rows_shape datetimeLocalToIso (some "u1") formSameInstant
    ((handleCreateWith datetimeLocalToIso (some "u1") formSameInstant).toOption.getD [])
    (by decide)

/-! ## Claim C6 -/

/-- A valid submission except that the capacity field is blank. -/
def formBlankCapacity : NewForm :=
  { title := "Run club"
    sport := "Running"
    dates := ["2025-01-01T10:00"]
    addressText := "123 Main Street"
    city := "Orlando"
    stateUS := "FL"
    capacity := ""
    waitlist := ""
    priceUsd := "0"
    whatsapp := "+14075551234"
    description := ""
    imageFile := none }

/-- C6, counterexample: the creation expander rejects a payload whose
capacity field is absent — the otherwise-valid blank-capacity submission
fails with the mandatory-capacity validation error instead of producing
unlimited-capacity records. -/
theorem c6_blank_capacity_rejected_cex :
    handleCreate (some "u1") formBlankCapacity = .error "Capacity * é obrigatório." := by
  decide

theorem reqF_saved {c : Prop} [Decidable c] {msg : String} {k : SaveResult}
    {p : EditPayload} {ex : List NewRow} :
    reqF c msg k = .saved p ex ↔ c ∧ k = .saved p ex := by
  unfold reqF
  split <;> simp_all

theorem bindF_saved {e : Except String β} {k : β → SaveResult}
    {p : EditPayload} {ex : List NewRow} :
    bindF e k = .saved p ex ↔ ∃ b, e = .ok b ∧ k b = .saved p ex := by
  cases e <;> simp [bindF]

theorem reqSomeF_saved {o : Option β} {msg : String} {k : β → SaveResult}
    {p : EditPayload} {ex : List NewRow} :
    reqSomeF o msg k = .saved p ex ↔ ∃ b, o = some b ∧ k b = .saved p ex := by
  cases o <;> simp [reqSomeF]

theorem parseCapacityOptional_blank {s : String} (h : strTrim s = "") :
    parseCapacityOptional s = .ok none := by
  simp [parseCapacityOptional, h]

theorem saveWith_capacity {uid : String} {f : EditForm} {act : EditActivity}
    {capN : Option JsNum} {waitN : JsNum} {cents : Int} {firstIso : LocalDT}
    {extraIso : List LocalDT} {p : EditPayload} {ex : List NewRow}
    (h : saveWith uid f act capN waitN cents firstIso extraIso = .saved p ex) :
    p.capacity = capN ∧ ∀ r ∈ ex, r.capacity = capN := by
  unfold saveWith at h
  rw [SaveResult.saved.injEq] at h
  obtain ⟨hp, hex⟩ := h
  constructor
  · rw [← hp]
  · intro r hr
    rw [← hex] at hr
    obtain ⟨iso, -, rfl⟩ := List.mem_map.mp hr
    rfl

/-- Inversion of a successful edit save: the optional-capacity parser
accepted the capacity field, and the result was built by `saveWith` from
its value. -/
theorem handleSaveEdit_saved {f : EditForm} {p : EditPayload} {ex : List NewRow}
    (h : handleSaveEdit f = .saved p ex) :
    ∃ uid act capN waitN cents firstIso extraIso,
      parseCapacityOptional f.capacity = .ok capN ∧
      saveWith uid f act capN waitN cents firstIso extraIso = .saved p ex := by
  unfold handleSaveEdit at h
  rcases hu : f.userId with _ | uid <;> rw [hu] at h
  · exact SaveResult.noConfusion h
  rcases ha : f.activity with _ | act <;> rw [ha] at h
  · exact SaveResult.noConfusion h
  rw [reqF_saved] at h
  obtain ⟨-, h⟩ := h
  rw [reqF_saved] at h
  obtain ⟨-, h⟩ := h
  rw [reqF_saved] at h
  obtain ⟨-, h⟩ := h
  rw [reqF_saved] at h
  obtain ⟨-, h⟩ := h
  rw [reqF_saved] at h
  obtain ⟨-, h⟩ := h
  rw [reqSomeF_saved] at h
  obtain ⟨isoDates, -, h⟩ := h
  rcases isoDates with _ | ⟨firstIso, extraIso⟩
  · exact SaveResult.noConfusion h
  rw [reqF_saved] at h
  obtain ⟨-, h⟩ := h
  rw [reqF_saved] at h
  obtain ⟨-, h⟩ := h
  rw [reqF_saved] at h
  obtain ⟨-, h⟩ := h
  rw [bindF_saved] at h
  obtain ⟨capN, hcap, h⟩ := h
  rw [bindF_saved] at h
  obtain ⟨waitN, -, h⟩ := h
  rw [reqF_saved] at h
  obtain ⟨-, h⟩ := h
  rw [reqSomeF_saved] at h
  obtain ⟨cents, -, h⟩ := h
  rw [reqF_saved] at h
  obtain ⟨-, h⟩ := h
  exact ⟨uid, act, capN, waitN, cents, firstIso, extraIso, hcap, h⟩

/-- C6, amended: at creation (`app/activities/new/page.tsx`) capacity is
mandatory — a blank capacity field is always rejected with a validation
error; it is the edit-time handler (`app/activities/[id]/edit/page.tsx`)
that treats capacity as optional, writing `null` (unlimited) to the
updated record and to every created sibling record when the field is
blank. -/
theorem c6_capacity_mandatory_at_create (resolve : String → Option LocalDT)
    (user : Option String) :
    (∀ f : NewForm, strTrim f.capacity = "" →
      ∃ e, handleCreateWith resolve user f = .error e) ∧
    (∀ (ef : EditForm) (p : EditPayload) (ex : List NewRow),
      handleSaveEdit ef = .saved p ex → strTrim ef.capacity = "" →
      p.capacity = none ∧ ∀ r ∈ ex, r.capacity = none) := by
  constructor
  · intro f hblank
    rcases hres : handleCreateWith resolve user f with e | rows
    · exact ⟨e, rfl⟩
    · exact absurd hblank (fun hb => (handleCreateWith_ok hres).2.1 hb)
  · intro ef p ex h hblank
    obtain ⟨uid, act, capN, waitN, cents, fi, ei, hcap, hs⟩ := handleSaveEdit_saved h
    rw [parseCapacityOptional_blank hblank] at hcap
    injection hcap with hcap
    rw [← hcap] at hs
    exact saveWith_capacity hs

/-- A valid edit-save submission whose capacity field is blank. -/
def editFormBlankCap : EditForm :=
  { userId := some "u1"
    activity := some ⟨"u1", none, none, none⟩
    title := "Run club"
    sport := "Running"
    dates := ["2025-01-01T10:00"]
    addressText := "123 Main Street"
    city := "Orlando"
    stateUS := "FL"
    capacity := ""
    waitlist := ""
    priceUsd := "0"
    whatsapp := ""
    description := "A run for everyone"
    imageFile := none }

/-- The update payload produced by `handleSaveEdit` on `editFormBlankCap`. -/
def editPayloadBlankCap : EditPayload :=
  { title := "Run club"
    sport := "Running"
    activity_type := "Running"
    description := "A run for everyone"
    start_date := ⟨2025, 1, 1, 10, 0, 0⟩
    address_text := "123 Main Street"
    location_text := "123 Main Street"
    city := "Orlando"
    state := "FL"
    capacity := none
    waitlist_capacity := some ⟨false, 0, 0, 0⟩
    price_cents := 0
    organizer_whatsapp := none
    image_path := none
    is_public := true
    published := true }

/-- C6, witness for the amended theorem: the blank-capacity creation
fails, and the blank-capacity edit save goes through with an unlimited
(`none`) capacity. -/
theorem c6_capacity_mandatory_witness :
    (∃ e, handleCreateWith datetimeLocalToIso (some "u1") formBlankCapacity = .error e) ∧
    (editPayloadBlankCap.capacity = none ∧ ∀ r ∈ ([] : List NewRow), r.capacity = none) :=
  ⟨(c6_capacity_mandatory_at_create datetimeLocalToIso (some "u1")).1
      formBlankCapacity (by decide),
    (c6_capacity_mandatory_at_create datetimeLocalToIso (some "u1")).2
      editFormBlankCap editPayloadBlankCap [] (by decide) (by decide)⟩

/-! ## Claim C8 -/

theorem find_name_over_email_rewrite (f : String → Option String) (u : String) :
    ∀ ps : List Profile,
      ((ps.map (fun p => { p with email := f p.id })).find? (fun p => p.id = u)).bind
          (fun p => p.full_name)
        = (ps.find? (fun p => p.id = u)).bind (fun p => p.full_name) := by
  intro ps
  induction ps with
  | nil => rfl
  | cons p ps ih =>
    simp only [List.map_cons]
    by_cases h : p.id = u
    · rw [List.find?_cons_of_pos _ (by simp [h]), List.find?_cons_of_pos _ (by simp [h])]
      rfl
    · rw [List.find?_cons_of_neg _ (by simp [h]), List.find?_cons_of_neg _ (by simp [h])]
      exact ih

theorem profileName_rewriteEmails (f : String → Option String) (db : Db) (u : String) :
    profileName (rewriteEmails f db) u = profileName db u := by
  unfold profileName rewriteEmails
  exact find_name_over_email_rewrite f u db.profiles

/-- C8: role-based roster visibility.  A non-owner requester gets only the
confirmed count and the coarse avatar identities (user id and display
name): rewriting every profile email arbitrarily changes nothing in what
the non-owner receives, and the creator roster is empty for them.  The
owner receives the full roster, whose rows expose, for each confirmed
attendee in order, the attendee's user id and profile email (with the
display name alongside). -/
theorem c8_roster_visibility (db : Db) (aid uid : String)
    (f : String → Option String) :
    (isOwner db aid uid = false →
      fetchCreatorList db aid uid = [] ∧
      fetchCreatorList (rewriteEmails f db) aid uid = [] ∧
      fetchAttendeeAvatars (rewriteEmails f db) aid (some uid)
        = fetchAttendeeAvatars db aid (some uid) ∧
      confirmedCountRPC (rewriteEmails f db) aid = confirmedCountRPC db aid) ∧
    (isOwner db aid uid = true →
      (fetchCreatorList db aid uid).map (fun r => r.user_id)
        = (db.attendees.filter (fun r => r.activity_id = aid)).map
            (fun r => some r.user_id) ∧
      (fetchCreatorList db aid uid).map (fun r => r.email)
        = (db.attendees.filter (fun r => r.activity_id = aid)).map
            (fun r => profileEmail db r.user_id) ∧
      (fetchCreatorList db aid uid).map (fun r => r.full_name)
        = (db.attendees.filter (fun r => r.activity_id = aid)).map
            (fun r => profileName db r.user_id)) := by
  constructor
  · intro h
    have hrw : isOwner (rewriteEmails f db) aid uid = isOwner db aid uid := rfl
    refine ⟨by simp [fetchCreatorList, h], by simp [fetchCreatorList, hrw, h], ?_, rfl⟩
    unfold fetchAttendeeAvatars
    simp only
    have hatt : (rewriteEmails f db).attendees = db.attendees := rfl
    rw [hatt]
    congr 1
    funext r
    rw [profileName_rewriteEmails]
  · intro h
    unfold fetchCreatorList
    rw [h]
    refine ⟨?_, ?_, ?_⟩ <;> simp [creatorRosterRPC]

/-- A store with an owner `o`, one confirmed attendee `u2` with a profile
carrying a name and an email, and a non-owner viewer `x`. -/
def dbRoster : Db :=
  { activities := [⟨"a1", "o", some 10⟩]
    attendees := [⟨"a1", "u2", 1⟩]
    profiles := [⟨"u2", some "Bob Lee", some "bob.lee at example.com"⟩]
    messages := [] }

/-- C8, witness: non-owner `x` gets no creator roster and an
email-independent view; owner `o` gets the full roster with the email. -/
theorem c8_roster_visibility_witness :
    (fetchCreatorList dbRoster "a1" "x" = [] ∧
      fetchCreatorList (rewriteEmails (fun _ => none) dbRoster) "a1" "x" = [] ∧
      fetchAttendeeAvatars (rewriteEmails (fun _ => none) dbRoster) "a1" (some "x")
        = fetchAttendeeAvatars dbRoster "a1" (some "x") ∧
      confirmedCountRPC (rewriteEmails (fun _ => none) dbRoster) "a1"
        = confirmedCountRPC dbRoster "a1") ∧
    ((fetchCreatorList dbRoster "a1" "o").map (fun r => r.user_id)
        = (dbRoster.attendees.filter (fun r => r.activity_id = "a1")).map
            (fun r => some r.user_id) ∧
      (fetchCreatorList dbRoster "a1" "o").map (fun r => r.email)
        = (dbRoster.attendees.filter (fun r => r.activity_id = "a1")).map
            (fun r => profileEmail dbRoster r.user_id) ∧
      (fetchCreatorList dbRoster "a1" "o").map (fun r => r.full_name)
        = (dbRoster.attendees.filter (fun r => r.activity_id = "a1")).map
            (fun r => profileName dbRoster r.user_id)) :=
  ⟨(c8_roster_visibility dbRoster "a1" "x" (fun _ => none)).1 (by decide),
    (c8_roster_visibility dbRoster "a1" "o" (fun _ => none)).2 (by decide)⟩

/-! ## Claim C9 -/

/-- C9: the chat list returns at most 50 messages, ordered oldest-first by
`created_at`; messages with an equal timestamp appear as a prefix of the
store's insertion-ordered rows with that timestamp (ties broken by
insertion/id order); and an unauthenticated viewer gets an empty feed
instead of an error. -/
theorem c9_chat_list_bounded_ordered (db : Db) (aid : String) :
    fetchChat db aid none = [] ∧
    ∀ uid : String,
      (fetchChat db aid (some uid)).length ≤ 50 ∧
      (fetchChat db aid (some uid)).Pairwise
        (fun m1 m2 => m1.created_at ≤ m2.created_at) ∧
      ∀ t : Nat, ∃ n,
        (fetchChat db aid (some uid)).filter (fun m => m.created_at = t)
          = ((db.messages.filter (fun m => m.activity_id = aid)).filter
              (fun m => m.created_at = t)).take n := by
  refine ⟨rfl, ?_⟩
  intro uid
  refine ⟨List.length_take_le _ _, ?_, ?_⟩
  · exact (pairwise_sortOn (fun m : MsgRow => m.created_at) _).sublist (List.take_sublist _ _)
  · intro t
    obtain ⟨n, hn⟩ := filter_take_of_filter (fun m => m.created_at = t)
      (sortOn (fun m => m.created_at) (db.messages.filter (fun m => m.activity_id = aid))) 50
    refine ⟨n, ?_⟩
    unfold fetchChat
    simp only
    rw [hn, filter_sortOn]

end PlatformSports
